import Mathlib

/-
  Verification development for the greenlight JSON-over-HTTP backend.

  Shallow embedding of the core request-to-query translation machinery:
  the validator package, the query-string readers, the filter validation
  in the list-movies handler, the writeJSON envelope writer and the
  readJSON decode/error-taxonomy layer.  Go maps of strings are embedded
  as association lists, Go byte streams as lists of characters, and the
  stateful http.ResponseWriter as an explicit record threaded through
  writeJSON.
-/

set_option autoImplicit false
set_option maxRecDepth 10000

namespace Greenlight

/-! ## internal/validator (src/unnamed/part_000) -/

namespace validator

/-- Embeds the Go `Validator` struct: a map from field key to one
error message, represented as an association list in insertion order. -/
structure Validator where
  Errors : List (String × String)
  deriving DecidableEq, Repr

/-- `validator.New()`: a fresh validator with an empty errors map. -/
def New : Validator := ⟨[]⟩

/-- `Valid()` returns true iff the errors map has no entries. -/
def Validator.Valid (v : Validator) : Bool :=
  v.Errors.isEmpty

/-- `AddError(key, message)`: record `message` under `key` only when no
entry for `key` exists; otherwise leave the map unchanged. -/
def Validator.AddError (v : Validator) (key message : String) : Validator :=
  if (v.Errors.lookup key).isSome then v
  else ⟨v.Errors ++ [(key, message)]⟩

/-- `Check(ok, key, message)`: record via `AddError` exactly when `ok` is false. -/
def Validator.Check (v : Validator) (ok : Bool) (key message : String) : Validator :=
  if ok then v else v.AddError key message

/-- `validator.In(value, list...)`: membership by exact string equality. -/
def In (value : String) (list : List String) : Bool :=
  list.any (fun x => value = x)

/-- `validator.Unique(values)`: build a set of the values and compare
cardinalities, as the Go code does with a `map[string]bool`. -/
def Unique (values : List String) : Bool :=
  let uniqueValues := values.foldl (fun acc v => if acc.contains v then acc else v :: acc) []
  values.length == uniqueValues.length

end validator

/-! ## Query-string helpers (src/unnamed/part_001) -/

/-- Embeds Go `url.Values`: a map from key to a list of values. -/
def QS := List (String × List String)

/-- `qs.Get(key)`: first value associated with `key`, or `""` when the
key is absent or has no values. -/
def qsGet (qs : QS) (key : String) : String :=
  match qs.lookup key with
  | some (s :: _) => s
  | _ => ""

/-- Digit accumulation for the base-10 integer parser. Fails on the
first non-digit character. -/
def digitsVal : List Char → Nat → Option Nat
  | [], acc => some acc
  | c :: cs, acc =>
      if c.isDigit then digitsVal cs (acc * 10 + (c.toNat - 48)) else none

/-- Embeds `strconv.ParseInt(s, 10, 64)` (and `strconv.Atoi` on a 64-bit
platform): an optional sign, at least one digit, 64-bit range check;
`none` models a non-nil error. -/
def parseInt64 (s : String) : Option Int :=
  let core : List Char → Bool → Option Int := fun ds neg =>
    match ds with
    | [] => none
    | _ =>
      match digitsVal ds 0 with
      | none => none
      | some n =>
          let i : Int := if neg then -(n : Int) else (n : Int)
          if -(2 ^ 63) ≤ i ∧ i ≤ 2 ^ 63 - 1 then some i else none
  match s.toList with
  | '+' :: ds => core ds false
  | '-' :: ds => core ds true
  | ds => core ds false

/-- `readString(qs, key, defaultValue)`: the value when present and
non-empty, else the default. -/
def readString (qs : QS) (key defaultValue : String) : String :=
  let s := qsGet qs key
  if s = "" then defaultValue else s

/-- `readCSV(qs, key, defaultValue)`: split a present non-empty value on
commas, else return the default slice. -/
def readCSV (qs : QS) (key : String) (defaultValue : List String) : List String :=
  let csv := qsGet qs key
  if csv = "" then defaultValue else csv.splitOn ","

/-- `readInt(qs, key, defaultValue, v)`: absent or empty returns the
default; unparseable records "must be an integer value" under `key` and
returns the default; otherwise returns the parsed integer.  Returns the
updated validator explicitly since Go mutates it in place. -/
def readInt (qs : QS) (key : String) (defaultValue : Int) (v : validator.Validator) :
    Int × validator.Validator :=
  let s := qsGet qs key
  if s = "" then (defaultValue, v)
  else
    match parseInt64 s with
    | none => (defaultValue, v.AddError key "must be an integer value")
    | some i => (i, v)

/-- `readIDParam(request)`: parse the raw "id" URL parameter as a signed
base-10 64-bit integer; on parse failure or a value below 1 return id 0
together with an error. -/
def readIDParam (idParam : String) : Int × Option String :=
  match parseInt64 idParam with
  | none => (0, some "invalid id parameter")
  | some id =>
      if id < 1 then (0, some "invalid id parameter") else (id, none)

/-! ## Filters and the list-movies handler (src/cmd/api/movies.go) -/

/-- Embeds `data.Filters`: page, page size, raw sort string and the
permitted sort tokens. -/
structure Filters where
  Page : Int
  PageSize : Int
  Sort' : String
  SortSafelist : List String
  deriving DecidableEq, Repr

/-- Modelled from the spec: the `data.ValidateFilters` function is not
among the provided source files (only its caller in `listMoviesHandler`
is), so its checks are taken from spec section 4.4: page in
[1, 10_000_000], page size in [1, 100], and the raw sort string an exact
member of the safelist; every check runs, none short-circuits. -/
def ValidateFilters (v : validator.Validator) (f : Filters) : validator.Validator :=
  ((((v.Check (0 < f.Page) "page" "must be greater than zero").Check
      (f.Page ≤ 10000000) "page" "must be a maximum of 10 million").Check
      (0 < f.PageSize) "page_size" "must be greater than zero").Check
      (f.PageSize ≤ 100) "page_size" "must be a maximum of 100").Check
      (validator.In f.Sort' f.SortSafelist) "sort" "invalid sort value"

/-- The sort safelist literal installed by `listMoviesHandler`. -/
def movieSortSafelist : List String :=
  ["id", "title", "year", "runtime", "-id", "-title", "-year", "-runtime"]

/-- Outcome of the list-movies handler up to the persistence call: either
it responds with the validation errors, or it reaches
`app.models.Movies.GetAll` with the title, genres and filters shown. -/
inductive ListOutcome where
  | failedValidation (errors : List (String × String))
  | fetchMovies (title : String) (genres : List String) (filters : Filters)
  deriving DecidableEq, Repr

/-- The handler's construction of the filters and of the validator state
after `ValidateFilters`, following the source order: fresh validator,
readInt "page" (default 1), readInt "page_size" (default 20),
readString "sort" (default "id"), safelist literal, then ValidateFilters. -/
def listMoviesStep (qs : QS) : Filters × validator.Validator :=
  let v := validator.New
  let page := readInt qs "page" 1 v
  let pageSize := readInt qs "page_size" 20 page.2
  let sort := readString qs "sort" "id"
  let f : Filters := ⟨page.1, pageSize.1, sort, movieSortSafelist⟩
  (f, ValidateFilters pageSize.2 f)

/-- `listMoviesHandler` up to the persistence call: validate the filters
and either respond with the errors or fetch with the validated filters. -/
def listMoviesHandler (qs : QS) : ListOutcome :=
  let step := listMoviesStep qs
  if step.2.Valid then
    ListOutcome.fetchMovies (readString qs "title" "") (readCSV qs "genres" []) step.1
  else
    ListOutcome.failedValidation step.2.Errors

/-! ## writeJSON and the envelope (src/unnamed/part_001) -/

/-- Embeds the Go `interface{}` values reachable from an `envelope`:
JSON-serializable shapes plus `chan`, standing for any value that
`json.Marshal` cannot serialize (channels, functions, complex numbers). -/
inductive GoValue where
  | null
  | bool (b : Bool)
  | num (n : Int)
  | str (s : String)
  | arr (xs : List GoValue)
  | obj (fields : List (String × GoValue))
  | chan

/-- `envelope`: a map from string keys to arbitrary values. -/
def Envelope := List (String × GoValue)

/-- Comma-join serialized fragments. -/
def joinComma : List (List Char) → List Char
  | [] => []
  | [x] => x
  | x :: xs => x ++ ',' :: joinComma xs

mutual

/-- Embeds `json.Marshal` on the value shapes above: fails exactly when a
non-serializable value (`chan`) is reachable from the payload.  String
escaping and map-key ordering are not modelled; only success, failure
and the all-or-nothing output matter here. -/
def jsonMarshal : GoValue → Except String (List Char)
  | GoValue.null => Except.ok "null".toList
  | GoValue.bool true => Except.ok "true".toList
  | GoValue.bool false => Except.ok "false".toList
  | GoValue.num n => Except.ok (toString n).toList
  | GoValue.str s => Except.ok ('"' :: s.toList ++ ['"'])
  | GoValue.arr xs =>
      match marshalArr xs with
      | Except.error e => Except.error e
      | Except.ok ls => Except.ok ('[' :: joinComma ls ++ [']'])
  | GoValue.obj fields =>
      match marshalObj fields with
      | Except.error e => Except.error e
      | Except.ok ls => Except.ok ('\x7b' :: joinComma ls ++ ['\x7d'])
  | GoValue.chan => Except.error "json: unsupported type: chan"

def marshalArr : List GoValue → Except String (List (List Char))
  | [] => Except.ok []
  | x :: xs =>
      match jsonMarshal x with
      | Except.error e => Except.error e
      | Except.ok cx =>
          match marshalArr xs with
          | Except.error e => Except.error e
          | Except.ok cxs => Except.ok (cx :: cxs)

def marshalObj : List (String × GoValue) → Except String (List (List Char))
  | [] => Except.ok []
  | (k, x) :: xs =>
      match jsonMarshal x with
      | Except.error e => Except.error e
      | Except.ok cx =>
          match marshalObj xs with
          | Except.error e => Except.error e
          | Except.ok cxs => Except.ok (('"' :: k.toList ++ '"' :: ':' :: cx) :: cxs)

end

/-- Embeds the observable state of an `http.ResponseWriter`: accumulated
headers, the status code once written, the body bytes written so far, and
a flag saying whether the underlying connection write fails (the model of
an unreliable destination). -/
structure ResponseWriter where
  headers : List (String × List String)
  wroteHeader : Option Nat
  body : List Char
  writeFails : Bool
  deriving DecidableEq, Repr

/-- `response.Header()[key] = value`: replace or add a header entry. -/
def ResponseWriter.setHeader (rw : ResponseWriter) (key : String) (value : List String) :
    ResponseWriter :=
  { rw with headers := (rw.headers.filter (fun kv => kv.1 ≠ key)) ++ [(key, value)] }

/-- `response.Write(bs)`: append to the body and report success, or fail
without writing when the underlying connection is broken.  The error
result models `Write`'s `(int, error)` return. -/
def ResponseWriter.write (rw : ResponseWriter) (bs : List Char) :
    ResponseWriter × Except String Nat :=
  if rw.writeFails then (rw, Except.error "write failed")
  else ({ rw with body := rw.body ++ bs }, Except.ok bs.length)

/-- `writeJSON(response, status, data, headers)`: marshal the envelope and
return the error on failure before touching the writer; on success append
a newline, merge the caller's headers, set Content-Type, write the status
and write the body, discarding `Write`'s result as the source does. -/
def writeJSON (rw : ResponseWriter) (status : Nat) (data : Envelope)
    (headers : List (String × List String)) : ResponseWriter × Option String :=
  match jsonMarshal (GoValue.obj data) with
  | Except.error e => (rw, some e)
  | Except.ok js =>
      let js := js ++ ['\n']
      let rw := headers.foldl (fun rw kv => rw.setHeader kv.1 kv.2) rw
      let rw := rw.setHeader "Content-Type" ["application/json"]
      let rw := { rw with wroteHeader := some status }
      let rw := (rw.write js).1
      (rw, none)

/-! ## readJSON and the decode error taxonomy (src/unnamed/part_001)

The `encoding/json` decoder is embedded as a small JSON scanner over a
list of characters with an explicit offset, mirroring the stdlib
behaviour `readJSON` relies on: `Decode` first scans one syntactically
complete value (whitespace-skipping, `io.EOF` when the stream is
exhausted, `io.ErrUnexpectedEOF` when a value is truncated,
`*json.SyntaxError` with an offset otherwise) and only then unmarshals
it into the target, reporting the first unknown field
(`DisallowUnknownFields`), the first type mismatch
(`*json.UnmarshalTypeError` carrying the field name when known), or an
`*json.InvalidUnmarshalError` when the target is not a writable
destination. -/

/-- Scanner state: remaining characters and the offset consumed so far. -/
structure PState where
  rest : List Char
  pos : Nat
  deriving DecidableEq, Repr

/-- Scan-phase errors: a syntax error at an offset, or truncated input. -/
inductive PErr where
  | syn (off : Nat)
  | ueof
  deriving DecidableEq, Repr

/-- JSON whitespace. -/
def isWS (c : Char) : Bool :=
  c = ' ' || c = '\t' || c = '\n' || c = '\r'

/-- Skip whitespace, advancing the offset. -/
def skipWS : List Char → Nat → List Char × Nat
  | [], p => ([], p)
  | c :: cs, p => if isWS c then skipWS cs (p + 1) else (c :: cs, p)

/-- A parsed JSON value; numbers keep their lexeme. -/
inductive JValue where
  | null
  | tru
  | fls
  | num (lexeme : String)
  | str (s : String)
  | arr (xs : List JValue)
  | obj (fields : List (String × JValue))

/-- Translate a string escape character; `none` rejects the escape. -/
def escChar (c : Char) : Option Char :=
  if c = '"' then some '"'
  else if c = '\\' then some '\\'
  else if c = '/' then some '/'
  else if c = 'n' then some '\n'
  else if c = 't' then some '\t'
  else if c = 'r' then some '\r'
  else if c = 'b' then some (Char.ofNat 8)
  else if c = 'f' then some (Char.ofNat 12)
  else none

/-- Scan a string body after the opening quote; returns the content, the
rest of the input and the offset after the closing quote. -/
def scanStringBody : List Char → Nat → List Char → Except PErr (String × List Char × Nat)
  | [], _, _ => Except.error PErr.ueof
  | c :: cs, p, acc =>
      if c = '"' then Except.ok (String.mk acc.reverse, cs, p + 1)
      else if c = '\\' then
        match cs with
        | [] => Except.error PErr.ueof
        | e :: cs' =>
            match escChar e with
            | some ec => scanStringBody cs' (p + 2) (ec :: acc)
            | none => Except.error (PErr.syn (p + 1))
      else scanStringBody cs (p + 1) (c :: acc)

/-- Take a maximal run of decimal digits. -/
def takeDigits : List Char → List Char × List Char
  | [] => ([], [])
  | c :: cs =>
      if c.isDigit then
        let r := takeDigits cs
        (c :: r.1, r.2)
      else ([], c :: cs)

/-- Scan the integer part of a JSON number: `0`, or a nonzero digit
followed by digits. -/
def scanIntPart : List Char → Option (List Char × List Char)
  | [] => none
  | c :: cs =>
      if c = '0' then some ([c], cs)
      else if c.isDigit then
        let r := takeDigits cs
        some (c :: r.1, r.2)
      else none

/-- Scan an optional fraction part `.digits`. -/
def scanFrac (l : List Char) : Except PErr (List Char × List Char)
  :=
  match l with
  | '.' :: cs =>
      match takeDigits cs with
      | ([], []) => Except.error PErr.ueof
      | ([], _) => Except.error (PErr.syn 0)
      | (ds, r) => Except.ok ('.' :: ds, r)
  | _ => Except.ok ([], l)

/-- Scan an optional exponent part `e[+-]digits`. -/
def scanExp (l : List Char) : Except PErr (List Char × List Char)
  :=
  match l with
  | c :: cs =>
      if c = 'e' || c = 'E' then
        let signAndRest : List Char × List Char :=
          match cs with
          | s :: cs' => if s = '+' || s = '-' then ([s], cs') else ([], cs)
          | [] => ([], [])
        match takeDigits signAndRest.2 with
        | ([], []) => Except.error PErr.ueof
        | ([], _) => Except.error (PErr.syn 0)
        | (ds, r) => Except.ok (c :: signAndRest.1 ++ ds, r)
      else Except.ok ([], c :: cs)
  | [] => Except.ok ([], [])

/-- Scan a JSON number starting at offset `p` (caller guarantees the
input starts with `-` or a digit). -/
def scanNumber (l : List Char) (p : Nat) : Except PErr (String × List Char × Nat) :=
  let sign : List Char × List Char × Nat :=
    match l with
    | '-' :: cs => (['-'], cs, p + 1)
    | _ => ([], l, p)
  match scanIntPart sign.2.1 with
  | none =>
      match sign.2.1 with
      | [] => Except.error PErr.ueof
      | _ => Except.error (PErr.syn sign.2.2)
  | some (ds, r1) =>
      match scanFrac r1 with
      | Except.error (PErr.syn _) => Except.error (PErr.syn (sign.2.2 + ds.length + 1))
      | Except.error PErr.ueof => Except.error PErr.ueof
      | Except.ok (fs, r2) =>
          match scanExp r2 with
          | Except.error (PErr.syn _) =>
              Except.error (PErr.syn (sign.2.2 + ds.length + fs.length + 1))
          | Except.error PErr.ueof => Except.error PErr.ueof
          | Except.ok (es, r3) =>
              let lex := sign.1 ++ ds ++ fs ++ es
              Except.ok (String.mk lex, r3, sign.2.2 + ds.length + fs.length + es.length)

/-- Drop an expected literal from the input, or fail. -/
def dropLit : List Char → List Char → Option (List Char)
  | [], l => some l
  | _ :: _, [] => none
  | c :: cs, x :: xs => if x = c then dropLit cs xs else none

mutual

/-- Scan one JSON value, skipping leading whitespace.  The fuel argument
bounds the recursion depth; `readJSON` supplies more fuel than any input
of its length can consume. -/
def parseValue : Nat → PState → Except PErr (JValue × PState)
  | 0, st => Except.error (PErr.syn st.pos)
  | Nat.succ fuel, st =>
      let sk := skipWS st.rest st.pos
      match sk.1 with
      | [] => Except.error PErr.ueof
      | c :: cs =>
          if c = '\x7b' then parseObject fuel ⟨cs, sk.2 + 1⟩
          else if c = '[' then parseArrayStart fuel ⟨cs, sk.2 + 1⟩
          else if c = '"' then
            match scanStringBody cs (sk.2 + 1) [] with
            | Except.error e => Except.error e
            | Except.ok (s, r, p) => Except.ok (JValue.str s, ⟨r, p⟩)
          else if c = '-' || c.isDigit then
            match scanNumber (c :: cs) sk.2 with
            | Except.error e => Except.error e
            | Except.ok (lex, r, p) => Except.ok (JValue.num lex, ⟨r, p⟩)
          else
            match dropLit "true".toList (c :: cs) with
            | some r => Except.ok (JValue.tru, ⟨r, sk.2 + 4⟩)
            | none =>
              match dropLit "false".toList (c :: cs) with
              | some r => Except.ok (JValue.fls, ⟨r, sk.2 + 5⟩)
              | none =>
                match dropLit "null".toList (c :: cs) with
                | some r => Except.ok (JValue.null, ⟨r, sk.2 + 4⟩)
                | none => Except.error (PErr.syn sk.2)

/-- After an opening brace: an empty object, or its members. -/
def parseObject : Nat → PState → Except PErr (JValue × PState)
  | 0, st => Except.error (PErr.syn st.pos)
  | Nat.succ fuel, st =>
      let sk := skipWS st.rest st.pos
      match sk.1 with
      | [] => Except.error PErr.ueof
      | c :: cs =>
          if c = '\x7d' then Except.ok (JValue.obj [], ⟨cs, sk.2 + 1⟩)
          else parseMembers fuel ⟨sk.1, sk.2⟩ []

/-- Object members: `"key" : value`, then a comma and more members or a
closing brace. -/
def parseMembers : Nat → PState → List (String × JValue) → Except PErr (JValue × PState)
  | 0, st, _ => Except.error (PErr.syn st.pos)
  | Nat.succ fuel, st, acc =>
      let sk := skipWS st.rest st.pos
      match sk.1 with
      | [] => Except.error PErr.ueof
      | c :: cs =>
          if c = '"' then
            match scanStringBody cs (sk.2 + 1) [] with
            | Except.error e => Except.error e
            | Except.ok (k, r2, p2) =>
                let sk3 := skipWS r2 p2
                match sk3.1 with
                | [] => Except.error PErr.ueof
                | c3 :: cs3 =>
                    if c3 = ':' then
                      match parseValue fuel ⟨cs3, sk3.2 + 1⟩ with
                      | Except.error e => Except.error e
                      | Except.ok (v, st4) =>
                          let sk5 := skipWS st4.rest st4.pos
                          match sk5.1 with
                          | [] => Except.error PErr.ueof
                          | c5 :: cs5 =>
                              if c5 = ',' then
                                parseMembers fuel ⟨cs5, sk5.2 + 1⟩ (acc ++ [(k, v)])
                              else if c5 = '\x7d' then
                                Except.ok (JValue.obj (acc ++ [(k, v)]), ⟨cs5, sk5.2 + 1⟩)
                              else Except.error (PErr.syn sk5.2)
                    else Except.error (PErr.syn sk3.2)
          else Except.error (PErr.syn sk.2)

/-- After an opening bracket: an empty array, or its elements. -/
def parseArrayStart : Nat → PState → Except PErr (JValue × PState)
  | 0, st => Except.error (PErr.syn st.pos)
  | Nat.succ fuel, st =>
      let sk := skipWS st.rest st.pos
      match sk.1 with
      | [] => Except.error PErr.ueof
      | c :: cs =>
          if c = ']' then Except.ok (JValue.arr [], ⟨cs, sk.2 + 1⟩)
          else parseElems fuel ⟨sk.1, sk.2⟩ []

/-- Array elements: a value, then a comma and more elements or a closing
bracket. -/
def parseElems : Nat → PState → List JValue → Except PErr (JValue × PState)
  | 0, st, _ => Except.error (PErr.syn st.pos)
  | Nat.succ fuel, st, acc =>
      match parseValue fuel st with
      | Except.error e => Except.error e
      | Except.ok (v, st2) =>
          let sk := skipWS st2.rest st2.pos
          match sk.1 with
          | [] => Except.error PErr.ueof
          | c :: cs =>
              if c = ',' then parseElems fuel ⟨cs, sk.2 + 1⟩ (acc ++ [v])
              else if c = ']' then Except.ok (JValue.arr (acc ++ [v]), ⟨cs, sk.2 + 1⟩)
              else Except.error (PErr.syn sk.2)

end

/-- Primitive field types of a decode target. -/
inductive JType where
  | tstring
  | tint
  | tbool
  deriving DecidableEq, Repr

/-- A decode target `dst`: a pointer to a struct with named fields (the
decoder rejects unknown fields), a pointer to a primitive, or an invalid
destination (nil or not a pointer) that makes `Decode` return a
`*json.InvalidUnmarshalError`. -/
inductive Target where
  | structT (fields : List (String × JType))
  | prim (t : JType)
  | invalid
  deriving DecidableEq, Repr

/-- Whether a JSON value can be stored into a field of the given type;
`null` unmarshals into anything as a no-op, as in `encoding/json`. -/
def typeMatches : JValue → JType → Bool
  | JValue.null, _ => true
  | JValue.str _, JType.tstring => true
  | JValue.num lex, JType.tint =>
      lex.toList.all (fun c => c.isDigit || c = '-')
  | JValue.tru, JType.tbool => true
  | JValue.fls, JType.tbool => true
  | _, _ => false

/-- Decode-phase errors, mirroring the error shapes `readJSON` triages. -/
inductive DErr where
  | syntaxErr (off : Nat)
  | unexpectedEOF
  | typeErr (field : String) (off : Nat)
  | eof
  | unknownField (name : String)
  | tooLarge
  | invalidUnmarshal
  deriving DecidableEq, Repr

/-- Check the parsed object's members against the struct fields in
document order, reporting the first unknown field or type mismatch, as
the stdlib decoder's first saved error. -/
def checkFields (tfields : List (String × JType)) (off : Nat) :
    List (String × JValue) → Option DErr
  | [] => none
  | (k, v) :: rest =>
      match tfields.lookup k with
      | none => some (DErr.unknownField k)
      | some t =>
          if typeMatches v t then checkFields tfields off rest
          else some (DErr.typeErr k off)

/-- Unmarshal the scanned value into the target, or report the first
error.  `off` is the offset at the end of the value, which the stdlib
records in `UnmarshalTypeError.Offset`. -/
def unmarshalCheck (v : JValue) (off : Nat) (dst : Target) : Option DErr :=
  match dst with
  | Target.invalid => some DErr.invalidUnmarshal
  | Target.prim t => if typeMatches v t then none else some (DErr.typeErr "" off)
  | Target.structT fs =>
      match v with
      | JValue.null => none
      | JValue.obj kvs => checkFields fs off kvs
      | _ => some (DErr.typeErr "" off)

/-- Embeds one `dec.Decode(dst)` call: skip whitespace, report `io.EOF`
on an exhausted stream, scan one value, then unmarshal it into the
target.  Returns the scanner state after the value on success. -/
def decodeTop (fuel : Nat) (st : PState) (dst : Target) : Except DErr PState :=
  match (skipWS st.rest st.pos).1 with
  | [] => Except.error DErr.eof
  | _ :: _ =>
      match parseValue fuel st with
      | Except.error PErr.ueof => Except.error DErr.unexpectedEOF
      | Except.error (PErr.syn off) => Except.error (DErr.syntaxErr off)
      | Except.ok (v, st') =>
          match unmarshalCheck v st'.pos dst with
          | some e => Except.error e
          | none => Except.ok st'

/-- The request body size limit enforced through `http.MaxBytesReader`. -/
def maxBytes : Nat := 1048576

/-- Result of `readJSON`: success, a client-facing error message, or a
panic (the `InvalidUnmarshalError` branch). -/
inductive ReadResult where
  | ok
  | err (msg : String)
  | panicked
  deriving DecidableEq, Repr

/-- The error triage in `readJSON`'s switch statement, one stable message
per decode failure kind; the invalid-unmarshal branch panics. -/
def classify : DErr → ReadResult
  | DErr.syntaxErr off =>
      ReadResult.err ("body contains badly-formed JSON (at character " ++ toString off ++ ")")
  | DErr.unexpectedEOF => ReadResult.err "body contains badly-formed JSON"
  | DErr.typeErr field off =>
      if field ≠ "" then
        ReadResult.err ("body contains incorrect JSON type for field \"" ++ field ++ "\"")
      else
        ReadResult.err ("body contains incorrect JSON type (at character " ++ toString off ++ ")")
  | DErr.eof => ReadResult.err "body must not be empty"
  | DErr.unknownField name =>
      ReadResult.err ("body contains unknown key \"" ++ name ++ "\"")
  | DErr.tooLarge =>
      ReadResult.err ("body must not be larger than " ++ toString maxBytes ++ " bytes")
  | DErr.invalidUnmarshal => ReadResult.panicked

/-- Fuel that always suffices for a body of the given length. -/
def jsonFuel (body : List Char) : Nat := 2 * body.length + 2

/-- `readJSON(response, request, dst)`: bound the body size, decode one
value into `dst` triaging any failure, then decode once more into an
empty struct and require `io.EOF`, rejecting bodies holding more than a
single JSON value. -/
def readJSON (body : List Char) (dst : Target) : ReadResult :=
  if body.length > maxBytes then classify DErr.tooLarge
  else
    match decodeTop (jsonFuel body) ⟨body, 0⟩ dst with
    | Except.error e => classify e
    | Except.ok st' =>
        match decodeTop (jsonFuel body) st' (Target.structT []) with
        | Except.error DErr.eof => ReadResult.ok
        | _ => ReadResult.err "body must only contain a single JSON value"

/-! ## Lemmas about the validator -/

/-- Looking up a key in the empty map gives nothing; hence a successful
lookup forces a nonempty map. -/
theorem lookup_isSome_ne_nil {l : List (String × String)} {k : String}
    (h : (l.lookup k).isSome) : l ≠ [] := by
  intro he
  subst he
  simp [List.lookup] at h

/-- A key absent from the first map is looked up in the second. -/
theorem lookup_append_of_none {l1 l2 : List (String × String)} {k : String}
    (h : l1.lookup k = none) : (l1 ++ l2).lookup k = l2.lookup k := by
  induction l1 with
  | nil => simp
  | cons a t ih =>
      rw [List.cons_append]
      cases hk : (k == a.1) with
      | true => simp [List.lookup, hk] at h
      | false =>
          simp only [List.lookup, hk] at h ⊢
          exact ih h

/-- `AddError` always leaves the validator invalid: either the key was
already present (so the map was nonempty) or a new entry is appended. -/
theorem addError_not_valid (v : validator.Validator) (k m : String) :
    (v.AddError k m).Valid = false := by
  unfold validator.Validator.AddError validator.Validator.Valid
  split
  · rename_i h
    cases he : v.Errors with
    | nil => exact absurd he (lookup_isSome_ne_nil h)
    | cons a t => simp [he]
  · simp

/-- `Check` leaves the validator valid exactly when it was valid before
and the checked condition held. -/
theorem check_valid_iff (v : validator.Validator) (ok : Bool) (k m : String) :
    (v.Check ok k m).Valid = true ↔ (v.Valid = true ∧ ok = true) := by
  cases ok with
  | true => simp [validator.Validator.Check]
  | false => simp [validator.Validator.Check, addError_not_valid]

/-- `validator.In` is exact membership. -/
theorem in_iff_mem (x : String) (l : List String) :
    validator.In x l = true ↔ x ∈ l := by
  unfold validator.In
  rw [List.any_eq_true]
  constructor
  · rintro ⟨b, hb, hx⟩
    have hxb : x = b := by simpa using hx
    exact hxb ▸ hb
  · intro hx
    exact ⟨x, hx, by simp⟩

/-- C7: the error map holds at most one message per key and the first
message wins: `AddError k m` appends the entry (and `k` then maps to `m`)
only when `k` has no entry, and otherwise leaves the validator unchanged;
`AddError "x" "first"` then `AddError "x" "second"` leaves `"x"` mapped
to `"first"`; and `Check ok k m` records through the same rule exactly
when `ok` is false. -/
theorem validator_first_error_wins (v : validator.Validator) (k m : String) :
    (v.Errors.lookup k = none →
        (v.AddError k m).Errors = v.Errors ++ [(k, m)]
        ∧ (v.AddError k m).Errors.lookup k = some m)
    ∧ ((v.Errors.lookup k).isSome → v.AddError k m = v)
    ∧ (((validator.New.AddError "x" "first").AddError "x" "second").Errors.lookup "x"
        = some "first")
    ∧ (∀ ok : Bool, v.Check ok k m = if ok then v else v.AddError k m) := by
  refine ⟨fun h => ?_, fun h => ?_, by decide, fun ok => rfl⟩
  · have he : (v.AddError k m).Errors = v.Errors ++ [(k, m)] := by
      unfold validator.Validator.AddError
      rw [h]
      rfl
    refine ⟨he, ?_⟩
    rw [he, lookup_append_of_none h]
    simp [List.lookup]
  · unfold validator.Validator.AddError
    rw [h]
    rfl

/-- Witness for C7 at a concrete validator. -/
theorem validator_first_error_wins_witness :
    (validator.New.AddError "x" "first").Errors = validator.New.Errors ++ [("x", "first")] :=
  ((validator_first_error_wins validator.New "x" "first").1 rfl).1

/-! ## Lemmas about Unique -/

/-- The set-insertion step used by `Unique`'s fold. -/
def validatorIns (acc : List String) (v : String) : List String :=
  if acc.contains v then acc else v :: acc

/-- The fold collecting distinct values never grows past one slot per
input element. -/
theorem foldl_ins_length_le (l : List String) :
    ∀ acc : List String, (l.foldl validatorIns acc).length ≤ acc.length + l.length := by
  induction l with
  | nil => intro acc; simp
  | cons a l ih =>
      intro acc
      rw [List.foldl_cons]
      by_cases h : a ∈ acc
      · have hins : validatorIns acc a = acc := by simp [validatorIns, h]
        rw [hins]
        have := ih acc
        simp only [List.length_cons]
        omega
      · have hins : validatorIns acc a = a :: acc := by simp [validatorIns, h]
        rw [hins]
        have := ih (a :: acc)
        simp only [List.length_cons] at this ⊢
        omega

/-- The fold fills one slot per element exactly when the input has no
duplicates and is disjoint from the accumulator. -/
theorem foldl_ins_length_eq_iff (l : List String) :
    ∀ acc : List String,
      (l.foldl validatorIns acc).length = acc.length + l.length ↔
        (l.Nodup ∧ ∀ x ∈ l, x ∉ acc) := by
  induction l with
  | nil => intro acc; simp
  | cons a l ih =>
      intro acc
      rw [List.foldl_cons]
      by_cases h : a ∈ acc
      · have hins : validatorIns acc a = acc := by simp [validatorIns, h]
        rw [hins]
        have hle := foldl_ins_length_le l acc
        constructor
        · intro heq
          simp only [List.length_cons] at heq
          omega
        · rintro ⟨-, hall⟩
          exact absurd h (hall a (by simp))
      · have hnmem : a ∉ acc := h
        have hins : validatorIns acc a = a :: acc := by simp [validatorIns, h]
        have harith : acc.length + (a :: l).length = (a :: acc).length + l.length := by
          simp only [List.length_cons]
          omega
        rw [hins, harith, ih (a :: acc)]
        constructor
        · rintro ⟨hnd, hall⟩
          refine ⟨List.nodup_cons.mpr ⟨fun hal => ?_, hnd⟩, ?_⟩
          · exact (hall a hal) (List.mem_cons_self a acc)
          · intro x hx
            rcases List.mem_cons.mp hx with rfl | hx
            · exact hnmem
            · exact fun hc => hall x hx (List.mem_cons_of_mem a hc)
        · rintro ⟨hndc, hall⟩
          obtain ⟨hanl, hnd⟩ := List.nodup_cons.mp hndc
          refine ⟨hnd, fun x hx hc => ?_⟩
          rcases List.mem_cons.mp hc with rfl | hc
          · exact hanl hx
          · exact hall x (List.mem_cons_of_mem a hx) hc

/-- C8: `Unique` decides exact-duplicate freedom: it returns true iff no
two elements at distinct indices are equal, and on the spec's three
examples it returns false, true and true. -/
theorem unique_iff_nodup (values : List String) :
    (validator.Unique values = true ↔ values.Nodup)
    ∧ validator.Unique ["a", "b", "a"] = false
    ∧ validator.Unique ["a", "b", "c"] = true
    ∧ validator.Unique ([] : List String) = true := by
  refine ⟨?_, by decide, by decide, by decide⟩
  show (values.length == (values.foldl validatorIns []).length) = true ↔ values.Nodup
  rw [beq_iff_eq]
  constructor
  · intro h
    have := (foldl_ins_length_eq_iff values []).mp (by simpa using h.symm)
    exact this.1
  · intro h
    have := (foldl_ins_length_eq_iff values []).mpr ⟨h, by simp⟩
    simpa using this.symm

/-- Witness for C8 at a concrete list. -/
theorem unique_iff_nodup_witness : ["a", "b", "c"].Nodup :=
  (unique_iff_nodup ["a", "b", "c"]).1.mp (by decide)

/-! ## readInt and readIDParam -/

/-- C6: `readInt` returns the default with no error when the key is
absent or empty, records "must be an integer value" under the key and
returns the default when the value does not parse, and returns the
parsed integer untouched otherwise. -/
theorem readInt_default_and_errors (qs : QS) (key : String) (d : Int)
    (v : validator.Validator) :
    (qsGet qs key = "" → readInt qs key d v = (d, v))
    ∧ (qsGet qs key ≠ "" → parseInt64 (qsGet qs key) = none →
        readInt qs key d v = (d, v.AddError key "must be an integer value"))
    ∧ (∀ i : Int, qsGet qs key ≠ "" → parseInt64 (qsGet qs key) = some i →
        readInt qs key d v = (i, v)) := by
  refine ⟨fun h => ?_, fun h hp => ?_, fun i h hp => ?_⟩
  · simp [readInt, h]
  · simp [readInt, h, hp]
  · simp [readInt, h, hp]

/-- Witness for C6: `page_size=abc` with default 20 returns 20 and
records a validation error under "page_size". -/
theorem readInt_default_and_errors_witness :
    readInt [("page_size", ["abc"])] "page_size" 20 validator.New
      = (20, ⟨[("page_size", "must be an integer value")]⟩) := by
  have h := (readInt_default_and_errors [("page_size", ["abc"])] "page_size" 20
    validator.New).2.1 (by decide) (by decide)
  simpa [validator.Validator.AddError, validator.New] using h

/-- C10: `readIDParam` errors exactly when the raw parameter fails to
parse as a signed base-10 64-bit integer or parses below 1; every error
case returns id 0 and every success case returns an id of at least 1. -/
theorem readIDParam_spec (s : String) :
    ((readIDParam s).2.isSome ↔
        (parseInt64 s = none ∨ ∃ i : Int, parseInt64 s = some i ∧ i < 1))
    ∧ ((readIDParam s).2.isSome → (readIDParam s).1 = 0)
    ∧ ((readIDParam s).2 = none → 1 ≤ (readIDParam s).1) := by
  cases hp : parseInt64 s with
  | none => simp [readIDParam, hp]
  | some i =>
      by_cases hi : i < 1
      · simp [readIDParam, hp, hi]
      · simp [readIDParam, hp, hi]
        omega

/-- Witness for C10 at the parameter "7". -/
theorem readIDParam_spec_witness : 1 ≤ (readIDParam "7").1 :=
  (readIDParam_spec "7").2.2 (by decide)

/-! ## The list-movies validation gate -/

/-- The validator component of `listMoviesStep` is literally
`ValidateFilters` applied to the validator threaded through the two
`readInt` calls and to the filters the handler built. -/
theorem listMoviesStep_snd (qs : QS) :
    (listMoviesStep qs).2 =
      ValidateFilters
        (readInt qs "page_size" 20 (readInt qs "page" 1 validator.New).2).2
        (listMoviesStep qs).1 := rfl

/-- A valid outcome of `ValidateFilters` forces the sort value into the
safelist. -/
theorem validateFilters_valid_sort (v : validator.Validator) (f : Filters)
    (h : (ValidateFilters v f).Valid = true) :
    validator.In f.Sort' f.SortSafelist = true := by
  unfold ValidateFilters at h
  rw [check_valid_iff] at h
  exact h.2

/-- C1: the list-movies handler reaches the persistence fetch only with
filters whose safelist is exactly the eight permitted sort tokens and on
which `ValidateFilters` (run on the validator carrying any `readInt`
errors) still reports valid — hence with a sort value inside the
safelist; whenever that validator is invalid the handler responds with
its errors and never reaches the fetch. -/
theorem listMovies_validates_before_fetch (qs : QS) :
    (∀ (t : String) (g : List String) (f : Filters),
        listMoviesHandler qs = ListOutcome.fetchMovies t g f →
          f.SortSafelist =
              ["id", "title", "year", "runtime", "-id", "-title", "-year", "-runtime"]
          ∧ (ValidateFilters
                (readInt qs "page_size" 20 (readInt qs "page" 1 validator.New).2).2
                f).Valid = true
          ∧ f.Sort' ∈ f.SortSafelist)
    ∧ ((listMoviesStep qs).2.Valid = false →
        listMoviesHandler qs = ListOutcome.failedValidation (listMoviesStep qs).2.Errors) := by
  constructor
  · intro t g f h
    by_cases hv : (listMoviesStep qs).2.Valid = true
    · have hf : f = (listMoviesStep qs).1 := by
        unfold listMoviesHandler at h
        rw [if_pos hv] at h
        exact (ListOutcome.fetchMovies.injEq _ _ _ _ _ _).mp h |>.2.2.symm
      have hsafe : (listMoviesStep qs).1.SortSafelist = movieSortSafelist := rfl
      have hvalid : (ValidateFilters
          (readInt qs "page_size" 20 (readInt qs "page" 1 validator.New).2).2
          f).Valid = true := by
        rw [hf, ← listMoviesStep_snd]
        exact hv
      refine ⟨by rw [hf]; exact hsafe, hvalid, ?_⟩
      have := validateFilters_valid_sort _ _ hvalid
      exact (in_iff_mem _ _).mp this
    · exfalso
      unfold listMoviesHandler at h
      rw [if_neg hv] at h
      exact ListOutcome.noConfusion h
  · intro hv
    unfold listMoviesHandler
    rw [if_neg (by rw [hv]; exact Bool.false_ne_true)]

/-- Witness for C1: the default query string validates and reaches the
fetch with the default filters, whose sort value "id" is in the safelist. -/
theorem listMovies_validates_before_fetch_witness :
    (⟨1, 20, "id", movieSortSafelist⟩ : Filters).Sort'
      ∈ (⟨1, 20, "id", movieSortSafelist⟩ : Filters).SortSafelist :=
  ((listMovies_validates_before_fetch []).1 "" []
    ⟨1, 20, "id", movieSortSafelist⟩ (by decide)).2.2

/-! ## writeJSON -/

/-- C2: when serializing the envelope fails, `writeJSON` returns that
error and the response writer is untouched — no headers merged, no
status line, no body bytes. -/
theorem writeJSON_serialization_failure (rw : ResponseWriter) (status : Nat)
    (data : Envelope) (headers : List (String × List String)) (e : String)
    (h : jsonMarshal (GoValue.obj data) = Except.error e) :
    writeJSON rw status data headers = (rw, some e) := by
  unfold writeJSON
  rw [h]

/-- Witness for C2: a channel inside the envelope fails to serialize and
leaves the writer untouched. -/
theorem writeJSON_serialization_failure_witness :
    writeJSON ⟨[], none, [], false⟩ 200 [("movie", GoValue.chan)] []
      = (⟨[], none, [], false⟩, some "json: unsupported type: chan") :=
  writeJSON_serialization_failure ⟨[], none, [], false⟩ 200
    [("movie", GoValue.chan)] [] "json: unsupported type: chan" rfl

/-- C9: `writeJSON` discards the result of the response write, so once
serialization succeeds it returns nil to its caller for every writer
state, including one whose underlying write fails. -/
theorem writeJSON_discards_write_error (rw : ResponseWriter) (status : Nat)
    (data : Envelope) (headers : List (String × List String)) (js : List Char)
    (h : jsonMarshal (GoValue.obj data) = Except.ok js) :
    (writeJSON rw status data headers).2 = none := by
  unfold writeJSON
  rw [h]

/-- Witness for C9: a failing destination write still yields a nil
return after successful serialization. -/
theorem writeJSON_discards_write_error_witness :
    (writeJSON ⟨[], none, [], true⟩ 200 [("movie", GoValue.str "x")] []).2 = none :=
  writeJSON_discards_write_error ⟨[], none, [], true⟩ 200
    [("movie", GoValue.str "x")] [] _ rfl

/-! ## Lemmas about the decoder -/

/-- Whitespace skipping consumes the whole input exactly when every
character is whitespace. -/
theorem skipWS_fst_eq_nil_iff (l : List Char) :
    ∀ p : Nat, (skipWS l p).1 = [] ↔ ∀ c ∈ l, isWS c = true := by
  induction l with
  | nil => intro p; simp [skipWS]
  | cons c cs ih =>
      intro p
      by_cases h : isWS c = true
      · rw [skipWS, if_pos h]
        rw [ih (p + 1)]
        simp [h]
      · rw [skipWS, if_neg h]
        simp only [List.cons_ne_nil, false_iff]
        intro hall
        exact h (hall c (List.mem_cons_self c cs))

/-- A value scan cannot succeed on input that whitespace exhausts. -/
theorem parseValue_not_ok_of_ws (fuel : Nat) (st : PState)
    (h : (skipWS st.rest st.pos).1 = []) (v : JValue) (st' : PState) :
    parseValue fuel st ≠ Except.ok (v, st') := by
  cases fuel with
  | zero => simp [parseValue]
  | succ fuel => simp [parseValue, h]

/-- Field checking never reports end-of-input. -/
theorem checkFields_ne_eof (tf : List (String × JType)) (off : Nat) :
    ∀ (kvs : List (String × JValue)) (e : DErr),
      checkFields tf off kvs = some e → e ≠ DErr.eof := by
  intro kvs
  induction kvs with
  | nil => intro e h; simp [checkFields] at h
  | cons kv rest ih =>
      obtain ⟨k, v⟩ := kv
      intro e h
      rw [checkFields] at h
      split at h
      · cases h
        simp
      · split at h
        · exact ih e h
        · cases h
          simp

/-- Unmarshalling never reports end-of-input. -/
theorem unmarshalCheck_ne_eof (v : JValue) (off : Nat) (dst : Target) (e : DErr)
    (h : unmarshalCheck v off dst = some e) : e ≠ DErr.eof := by
  cases dst with
  | invalid =>
      rw [unmarshalCheck] at h
      cases h
      simp
  | prim t =>
      rw [unmarshalCheck] at h
      by_cases ht : typeMatches v t = true
      · rw [if_pos ht] at h; cases h
      · rw [if_neg ht] at h; cases h; simp
  | structT fs =>
      cases v with
      | null => rw [unmarshalCheck] at h; cases h
      | obj kvs => rw [unmarshalCheck] at h; exact checkFields_ne_eof fs off kvs e h
      | tru => rw [unmarshalCheck] at h; cases h; all_goals simp
      | fls => rw [unmarshalCheck] at h; cases h; all_goals simp
      | num lex => rw [unmarshalCheck] at h; cases h; all_goals simp
      | str s => rw [unmarshalCheck] at h; cases h; all_goals simp
      | arr xs => rw [unmarshalCheck] at h; cases h; all_goals simp

/-- One `Decode` call reports `io.EOF` exactly when whitespace exhausts
the remaining stream. -/
theorem decodeTop_eof_iff (fuel : Nat) (st : PState) (dst : Target) :
    decodeTop fuel st dst = Except.error DErr.eof ↔ (skipWS st.rest st.pos).1 = [] := by
  unfold decodeTop
  cases hsk : (skipWS st.rest st.pos).1 with
  | nil => simp
  | cons c cs =>
      simp only [List.cons_ne_nil, iff_false]
      cases hp : parseValue fuel st with
      | error pe => cases pe <;> simp
      | ok vst =>
          obtain ⟨v, st'⟩ := vst
          cases hu : unmarshalCheck v st'.pos dst with
          | none => simp [hu]
          | some e2 =>
              have hne := unmarshalCheck_ne_eof v st'.pos dst e2 hu
              simp only [hu]
              simpa using hne

/-- C3: after a body within the size limit decodes one value into the
target, any remaining non-whitespace data makes `readJSON` return
"body must only contain a single JSON value", while a body whose
remainder is only whitespace — exactly one JSON value — makes it return
nil. -/
theorem readJSON_single_json_value (body : List Char) (dst : Target) (st' : PState)
    (hlen : body.length ≤ maxBytes)
    (hdec : decodeTop (jsonFuel body) ⟨body, 0⟩ dst = Except.ok st') :
    ((∃ c ∈ st'.rest, isWS c = false) →
        readJSON body dst = ReadResult.err "body must only contain a single JSON value")
    ∧ ((∀ c ∈ st'.rest, isWS c = true) → readJSON body dst = ReadResult.ok) := by
  have hif : readJSON body dst =
      match decodeTop (jsonFuel body) st' (Target.structT []) with
      | Except.error DErr.eof => ReadResult.ok
      | _ => ReadResult.err "body must only contain a single JSON value" := by
    unfold readJSON
    rw [if_neg (by omega), hdec]
  constructor
  · rintro ⟨c, hc, hcw⟩
    rw [hif]
    cases h2 : decodeTop (jsonFuel body) st' (Target.structT []) with
    | error e =>
        cases e with
        | eof =>
            exfalso
            have hnil := (decodeTop_eof_iff (jsonFuel body) st' (Target.structT [])).mp h2
            have := (skipWS_fst_eq_nil_iff st'.rest st'.pos).mp hnil c hc
            rw [hcw] at this
            exact Bool.false_ne_true this
        | syntaxErr off => rfl
        | unexpectedEOF => rfl
        | typeErr f off => rfl
        | unknownField n => rfl
        | tooLarge => rfl
        | invalidUnmarshal => rfl
    | ok st2 => rfl
  · intro hall
    rw [hif]
    have h2 : decodeTop (jsonFuel body) st' (Target.structT []) = Except.error DErr.eof :=
      (decodeTop_eof_iff (jsonFuel body) st' (Target.structT [])).mpr
        ((skipWS_fst_eq_nil_iff st'.rest st'.pos).mpr hall)
    rw [h2]

/-- C4: a decode failing with a type mismatch makes `readJSON` report
the offending field by name when the field is known, and the byte offset
of the mismatch otherwise. -/
theorem readJSON_type_mismatch (body : List Char) (dst : Target) (field : String)
    (off : Nat) (hlen : body.length ≤ maxBytes)
    (hdec : decodeTop (jsonFuel body) ⟨body, 0⟩ dst
      = Except.error (DErr.typeErr field off)) :
    readJSON body dst =
      (if field = "" then
        ReadResult.err ("body contains incorrect JSON type (at character "
          ++ toString off ++ ")")
      else
        ReadResult.err ("body contains incorrect JSON type for field \""
          ++ field ++ "\"")) := by
  unfold readJSON
  rw [if_neg (by omega), hdec]
  by_cases hf : field = ""
  · simp [classify, hf]
  · simp [classify, hf]

/-- C5: when the decode target is not a writable destination, a body
whose first value scans successfully makes `readJSON` panic; the panic
outcome is never one of the client-facing error messages. -/
theorem readJSON_invalid_target_panics (body : List Char) (v : JValue) (st' : PState)
    (hlen : body.length ≤ maxBytes)
    (hparse : parseValue (jsonFuel body) ⟨body, 0⟩ = Except.ok (v, st')) :
    readJSON body Target.invalid = ReadResult.panicked
    ∧ ∀ msg : String, readJSON body Target.invalid ≠ ReadResult.err msg := by
  have hdec : decodeTop (jsonFuel body) ⟨body, 0⟩ Target.invalid
      = Except.error DErr.invalidUnmarshal := by
    unfold decodeTop
    cases hsk : (skipWS (PState.mk body 0).rest (PState.mk body 0).pos).1 with
    | nil => exact absurd hparse (parseValue_not_ok_of_ws (jsonFuel body) ⟨body, 0⟩ hsk v st')
    | cons c cs => rw [hparse]; rfl
  have hrun : readJSON body Target.invalid = ReadResult.panicked := by
    unfold readJSON
    rw [if_neg (by omega), hdec]
    rfl
  exact ⟨hrun, fun msg h => by rw [hrun] at h; exact ReadResult.noConfusion h⟩

/-- Witness for C3: two concatenated JSON objects yield the
multiple-values failure, and the same body without the trailing object
decodes cleanly. -/
theorem readJSON_single_json_value_witness :
    readJSON ("\x7b\"title\":\"a\"\x7d\x7b\"title\":\"b\"\x7d").toList
        (Target.structT [("title", JType.tstring)])
      = ReadResult.err "body must only contain a single JSON value"
    ∧ readJSON ("\x7b\"title\":\"a\"\x7d").toList
        (Target.structT [("title", JType.tstring)])
      = ReadResult.ok :=
  ⟨(readJSON_single_json_value ("\x7b\"title\":\"a\"\x7d\x7b\"title\":\"b\"\x7d").toList
      (Target.structT [("title", JType.tstring)])
      ⟨("\x7b\"title\":\"b\"\x7d").toList, 13⟩
      (by decide) rfl).1 ⟨'\x7b', by decide, by decide⟩,
   (readJSON_single_json_value ("\x7b\"title\":\"a\"\x7d").toList
      (Target.structT [("title", JType.tstring)])
      ⟨[], 13⟩ (by decide) rfl).2 (by decide)⟩

/-- Witness for C4: a numeric value for the string field "title" yields
the type-mismatch message naming the field. -/
theorem readJSON_type_mismatch_witness :
    readJSON ("\x7b\"title\": 123\x7d").toList (Target.structT [("title", JType.tstring)])
      = ReadResult.err "body contains incorrect JSON type for field \"title\"" := by
  have h := readJSON_type_mismatch ("\x7b\"title\": 123\x7d").toList
    (Target.structT [("title", JType.tstring)]) "title" 14 (by decide) rfl
  rw [if_neg (by decide)] at h
  exact h

/-- Witness for C5: decoding an empty object into an invalid target
panics. -/
theorem readJSON_invalid_target_panics_witness :
    readJSON ("\x7b\x7d").toList Target.invalid = ReadResult.panicked :=
  (readJSON_invalid_target_panics ("\x7b\x7d").toList (JValue.obj []) ⟨[], 2⟩
    (by decide) rfl).1

end Greenlight
